import Mathlib

/-!
Verification of the CEL C++ evaluator core: shallow embedding of the
runtime value model, map builders, map/struct equality, the evaluation
trace loop and the comprehension iteration stack, with theorems settling
the specification claims.
-/

set_option maxHeartbeats 2000000

namespace CelSpec

/-- Status codes of `absl::Status`, restricted to the codes the embedded
code actually produces. -/
inductive StatusCode
  | kOk
  | kInvalidArgument
  | kInternal
  | kFailedPrecondition
  | kAlreadyExists
  | kUnimplemented
deriving DecidableEq, Repr

/-- An `absl::Status`: a code plus a message. -/
structure Status where
  code : StatusCode
  message : String
deriving DecidableEq, Repr

/-- `absl::OkStatus()`. -/
def okStatus : Status := ⟨StatusCode.kOk, ""⟩

/-- The discriminant of `cel::ValueKind` (common/value_kind.h), mirroring
the enumerators used by the embedded code. -/
inductive ValueKind
  | kNull
  | kBool
  | kInt
  | kUint
  | kDouble
  | kString
  | kBytes
  | kDuration
  | kTimestamp
  | kList
  | kMap
  | kStruct
  | kType
  | kError
  | kUnknown
deriving DecidableEq, Repr

/-- The runtime `cel::Value` tagged union.  Scalar alternatives carry their
native payloads (`int64_t` as `Int`, `uint64_t` as `Nat`, text as `String`);
the structured alternatives (list/map/struct) are handles to capability
interfaces in the source and are therefore modelled separately at the
interface level (`MapIface`, `StructIface` below), so the constructors here
carry only the kind; double contents never influence any claim under study
and are likewise left unparameterized. -/
inductive Value
  | nullVal
  | boolVal (b : Bool)
  | intVal (i : Int)
  | uintVal (n : Nat)
  | doubleVal
  | stringVal (s : String)
  | bytesVal (s : String)
  | durationVal (d : Int)
  | timestampVal (t : Int)
  | listVal
  | mapVal
  | structVal
  | typeVal
  | errorVal (s : Status)
  | unknownVal
deriving DecidableEq, Repr

/-- `Value::kind()`. -/
def Value.kind : Value → ValueKind
  | .nullVal => .kNull
  | .boolVal _ => .kBool
  | .intVal _ => .kInt
  | .uintVal _ => .kUint
  | .doubleVal => .kDouble
  | .stringVal _ => .kString
  | .bytesVal _ => .kBytes
  | .durationVal _ => .kDuration
  | .timestampVal _ => .kTimestamp
  | .listVal => .kList
  | .mapVal => .kMap
  | .structVal => .kStruct
  | .typeVal => .kType
  | .errorVal _ => .kError
  | .unknownVal => .kUnknown

/-- Whether a value has one of the four map-key-eligible kinds
(Bool, Int, Uint, String). -/
def Value.isMapKeyKind : Value → Bool
  | .boolVal _ => true
  | .intVal _ => true
  | .uintVal _ => true
  | .stringVal _ => true
  | _ => false

/-- `Value::Is<ErrorValue>()`. -/
def Value.isError : Value → Bool
  | .errorVal _ => true
  | _ => false

/-- `value.As<ErrorValue>().NativeValue()`: the status carried by an
Error-kind value (dummy `okStatus` on other kinds, never used there). -/
def Value.errorStatus : Value → Status
  | .errorVal s => s
  | _ => okStatus

/-! ### Map key hashing/equality/ordering (common/map_type_reflector.cc) -/

/-- `MapValueKeyEqualTo<Value>::operator()` from common/map_type_reflector.cc:
equality used by the fully dynamic map containers.  Keys of the same
eligible kind compare by payload, keys of different eligible kinds are
unequal, and any non-key kind falls into the `ABSL_DLOG(FATAL)` default
which returns `false`. -/
def mapValueKeyEqualTo (lhs rhs : Value) : Bool :=
  match lhs with
  | .boolVal a =>
    match rhs with
    | .boolVal b => a == b
    | .intVal _ => false
    | .uintVal _ => false
    | .stringVal _ => false
    | _ => false
  | .intVal a =>
    match rhs with
    | .intVal b => a == b
    | .boolVal _ => false
    | .uintVal _ => false
    | .stringVal _ => false
    | _ => false
  | .uintVal a =>
    match rhs with
    | .uintVal b => a == b
    | .boolVal _ => false
    | .intVal _ => false
    | .stringVal _ => false
    | _ => false
  | .stringVal a =>
    match rhs with
    | .stringVal b => a == b
    | .boolVal _ => false
    | .intVal _ => false
    | .uintVal _ => false
    | _ => false
  | _ => false

/-- `MapValueKeyLess<Value>::operator()` from common/map_type_reflector.cc:
the ordering used only for deterministic `DebugString` printing.
Cross-kind order is Bool before Int before Uint before String; within a
kind the native less-than applies (`false < true` for Bool, numeric for
Int/Uint, lexical for String); any non-key kind falls into the
`ABSL_DLOG(FATAL)` default which returns `false`. -/
def mapValueKeyLess (lhs rhs : Value) : Bool :=
  match lhs with
  | .boolVal a =>
    match rhs with
    | .boolVal b => !a && b
    | .intVal _ => true
    | .uintVal _ => true
    | .stringVal _ => true
    | _ => false
  | .intVal a =>
    match rhs with
    | .intVal b => a < b
    | .boolVal _ => false
    | .uintVal _ => true
    | .stringVal _ => true
    | _ => false
  | .uintVal a =>
    match rhs with
    | .uintVal b => a < b
    | .boolVal _ => false
    | .intVal _ => false
    | .stringVal _ => true
    | _ => false
  | .stringVal a =>
    match rhs with
    | .stringVal b => decide (a < b)
    | .boolVal _ => false
    | .intVal _ => false
    | .uintVal _ => false
    | _ => false
  | _ => false

/-! ### Map value contracts (common/values/map_value.cc) -/

/-- `InvalidMapKeyTypeError(kind)` from common/values/map_value.cc. -/
def invalidMapKeyTypeError (kind : ValueKind) : Status :=
  ⟨StatusCode.kInvalidArgument,
    "Invalid map key type: \x27" ++ reprStr kind ++ "\x27"⟩

/-- `cel::CheckMapKey` from common/values/map_value.cc: accepts exactly the
Bool/Int/Uint/String kinds and rejects every other kind with
`InvalidMapKeyTypeError`. -/
def CheckMapKey (key : Value) : Status :=
  match key.kind with
  | .kBool => okStatus
  | .kInt => okStatus
  | .kUint => okStatus
  | .kString => okStatus
  | k => invalidMapKeyTypeError k

/-- Modelled from the spec: `DuplicateKeyError().NativeValue()` — the
status carried by the duplicate-map-key error value; its definition lives
outside the sampled sources, the spec names it `DuplicateKey`. -/
def duplicateKeyError : Status :=
  ⟨StatusCode.kAlreadyExists, "duplicate key in map"⟩

/-! ### Map value builder (common/map_type_reflector.cc)

`MapValueBuilderImpl<Value, Value>::Put` is embedded below; the typed
specializations `MapValueBuilderImpl<K, V>` have the identical body modulo
`Cast` (reject Error-kind key, reject Error-kind value, insert into the
hash map keyed by `MapValueKeyEqualTo`, report `DuplicateKeyError` when the
insertion finds the key already present). -/

/-- Whether the builder hash map already holds `key`, i.e. whether
`entries_.insert` would find an equal existing key
(`MapValueKeyEqualTo`-equality of a stored key with the probe). -/
def containsKey (entries : List (Value × Value)) (key : Value) : Bool :=
  entries.any (fun e => mapValueKeyEqualTo e.1 key)

/-- Builder state: the `entries_` hash map of
`MapValueBuilderImpl<Value, Value>`, as the insertion-ordered entry list. -/
structure MapValueBuilderImpl where
  entries : List (Value × Value)
deriving DecidableEq, Repr

/-- `MapValueBuilderImpl<Value, Value>::Put`: returns the resulting status
together with the (possibly updated) builder state.  Error-kind keys and
values are rejected first with their carried status, then the insertion is
attempted, failing with `DuplicateKeyError` (and leaving the map unchanged)
when an equal key is already present. -/
def MapValueBuilderImpl.Put (b : MapValueBuilderImpl) (key value : Value) :
    Status × MapValueBuilderImpl :=
  if key.isError then (key.errorStatus, b)
  else if value.isError then (value.errorStatus, b)
  else if containsKey b.entries key then (duplicateKeyError, b)
  else (okStatus, ⟨b.entries ++ [(key, value)]⟩)

/-- Lookup of a key in the builder entries (first
`MapValueKeyEqualTo`-equal stored key wins, as in the hash map). -/
def findEntry (entries : List (Value × Value)) (key : Value) : Option Value :=
  (entries.find? (fun e => mapValueKeyEqualTo e.1 key)).map (·.2)

/-! ### Representation-agnostic Map/Struct equality
(common/values/map_value.cc, common/values/struct_value.cc)

Both algorithms run over the capability interfaces of their operands, so
the operands are modelled as interface records: identity (the pointer
compared by `Is(lhs, rhs)`), reported `Size()`, the key sequence produced
by `NewIterator()`, and the `Find`/`Get` lookups.  The entry-level
`Value::Equal` the algorithms invoke is polymorphic over the stored
values, so it is passed in as the parameter `eqv`, returning the result
value it stores into `result` (or a failing status). -/

/-- A `MapValue` behind its capability interface. -/
structure MapIface where
  ident : Nat
  size : Nat
  keys : List Value
  find : Value → Option Value
  get : Value → Except Status Value

/-- Outcome of an equality routine: a returned result value, a failing
status, or a crash of an `ABSL_CHECK` assertion. -/
inductive EqOutcome
  | ok (result : Value)
  | err (s : Status)
  | crash
deriving DecidableEq, Repr

/-- The per-index loop of `common_internal::MapValueEqual`: `fuel` counts
the remaining loop iterations (`lhs_size - index`) and `keys` is the
remainder of the lhs key iterator.  `ABSL_CHECK(lhs_iterator->HasNext())`
crashes when the iterator is exhausted before `lhs_size` iterations; a key
missing from `rhs` or an entry-level comparison storing `BoolValue(false)`
ends the loop with that `false` result. -/
def mapValueEqualLoop (eqv : Value → Value → Except Status Value)
    (lhs rhs : MapIface) : Nat → List Value → EqOutcome
  | 0, _ => .ok (.boolVal true)
  | _ + 1, [] => .crash
  | fuel + 1, k :: rest =>
    match rhs.find k with
    | none => .ok (.boolVal false)
    | some rhsValue =>
      match lhs.get k with
      | .error s => .err s
      | .ok lhsValue =>
        match eqv lhsValue rhsValue with
        | .error s => .err s
        | .ok r =>
          if r = Value.boolVal false then .ok r
          else mapValueEqualLoop eqv lhs rhs fuel rest

/-- `common_internal::MapValueEqual` from common/values/map_value.cc:
identity short-circuit, size comparison, then iterate the lhs keys probing
`rhs.Find` directly per key (no scratch mapping is built and no
consumed-entry count is verified; instead the lhs iterator is `ABSL_CHECK`ed
to have a next element at every iteration). -/
def mapValueEqual (eqv : Value → Value → Except Status Value)
    (lhs rhs : MapIface) : EqOutcome :=
  if lhs.ident = rhs.ident then .ok (.boolVal true)
  else if lhs.size ≠ rhs.size then .ok (.boolVal false)
  else mapValueEqualLoop eqv lhs rhs lhs.size lhs.keys

/-- A `StructValue` behind its capability interface: type name and the
field sequence produced by `ForEachField`.  The identity field mirrors the
object identity of the handle; `StructValueEqual` never consults it. -/
structure StructIface where
  ident : Nat
  typeName : String
  fields : List (String × Value)

/-- `lhs_fields.insert_or_assign(name, value)` on the scratch
`absl::flat_hash_map<std::string, Value>`. -/
def insertOrAssign (m : List (String × Value)) (name : String) (v : Value) :
    List (String × Value) :=
  if m.any (fun e => e.1 == name) then
    m.map (fun e => if e.1 == name then (name, v) else e)
  else m ++ [(name, v)]

/-- Snapshot of the lhs fields into the scratch mapping, built by the
first `ForEachField` pass of `StructValueEqual`. -/
def snapshotFields (fields : List (String × Value)) : List (String × Value) :=
  fields.foldl (fun m e => insertOrAssign m e.1 e.2) []

/-- Lookup in the scratch mapping (`lhs_fields.find(name)`). -/
def scratchFind (m : List (String × Value)) (name : String) : Option Value :=
  (m.find? (fun e => e.1 == name)).map (·.2)

/-- The second `ForEachField` pass of `StructValueEqual`: probe each rhs
field against the scratch mapping, stopping with `equal = false` on a miss
or on an entry-level comparison storing `BoolValue(false)`, and counting
the successfully matched rhs fields.  Returns the `equal` flag and the
count, or the propagated status of a failing entry-level comparison. -/
def structEqualLoop (eqv : Value → Value → Except Status Value)
    (scratch : List (String × Value)) :
    List (String × Value) → Nat → Except Status (Bool × Nat)
  | [], count => .ok (true, count)
  | (name, rhsValue) :: rest, count =>
    match scratchFind scratch name with
    | none => .ok (false, count)
    | some lhsValue =>
      match eqv lhsValue rhsValue with
      | .error s => .error s
      | .ok r =>
        if r = Value.boolVal false then .ok (false, count)
        else structEqualLoop eqv scratch rest (count + 1)

/-- `common_internal::StructValueEqual` from common/values/struct_value.cc:
short-circuit false on mismatched type names, snapshot the lhs fields into
a scratch mapping, probe every rhs field against it, and finally require
that the count of consumed scratch entries equals the scratch size,
treating a mismatch as inequality. -/
def structValueEqual (eqv : Value → Value → Except Status Value)
    (lhs rhs : StructIface) : EqOutcome :=
  if lhs.typeName ≠ rhs.typeName then .ok (.boolVal false)
  else
    match structEqualLoop eqv (snapshotFields lhs.fields) rhs.fields 0 with
    | .error s => .err s
    | .ok (equal, count) =>
      if !equal || count ≠ (snapshotFields lhs.fields).length then
        .ok (.boolVal false)
      else .ok (.boolVal true)

/-- The Map/Struct equality algorithm exactly as the claim words it, for
struct operands: identity short-circuit to true, size mismatch to false,
then snapshot one side and probe the other side against the snapshot,
verifying every scratch entry was consumed.  Defined from the claim text
(not the source) to be compared against `structValueEqual`. -/
def claimedStructEqual (eqv : Value → Value → Except Status Value)
    (lhs rhs : StructIface) : EqOutcome :=
  if lhs.ident = rhs.ident then .ok (.boolVal true)
  else if lhs.fields.length ≠ rhs.fields.length then .ok (.boolVal false)
  else
    match structEqualLoop eqv (snapshotFields lhs.fields) rhs.fields 0 with
    | .error s => .err s
    | .ok (equal, count) =>
      if !equal || count ≠ (snapshotFields lhs.fields).length then
        .ok (.boolVal false)
      else .ok (.boolVal true)

/-! ### Evaluator core (eval/eval/evaluator_core.cc, src/unnamed/part_002)

The operand stack is a list of values with the top at the head
(`Peek` = head, `Pop(1)` = tail).  An `ExpressionStep` is identified by
its originating AST node id, knows whether it `ComesFromAst`, and its
`Evaluate` transforms the operand stack or fails with a status (the step
set itself is opaque to the top-level loop). -/

/-- An execution-plan step, as seen by the top-level evaluation loop. -/
structure ExpressionStep where
  id : Nat
  comesFromAst : Bool
  evaluate : List Value → Except Status (List Value)

/-- The trace listener (`CelEvaluationListener`): invoked with the step's
AST node id and the current top-of-stack value, returning a status;
`none` models an empty callback (plain `Evaluate`). -/
def TraceListener := Option (Nat → Value → Status)

/-- `absl::Status::ok()`. -/
def Status.isOk (s : Status) : Bool := s.code == StatusCode.kOk

/-- The while loop of `CelExpressionFlatImpl::Trace`: execute each step in
order; a failing step status is returned immediately.  With a listener,
after every step that `ComesFromAst`, if the stack is non-empty the
listener receives the node id and the top of the stack and a non-ok
listener status is returned immediately; if the stack is empty the
listener is skipped (the source logs an error and continues). -/
def traceLoop (listener : TraceListener) :
    List ExpressionStep → List Value → Except Status (List Value)
  | [], stack => .ok stack
  | step :: rest, stack =>
    match step.evaluate stack with
    | .error s => .error s
    | .ok stack1 =>
      match listener with
      | none => traceLoop listener rest stack1
      | some callback =>
        if !step.comesFromAst then traceLoop listener rest stack1
        else
          match stack1 with
          | [] => traceLoop listener rest stack1
          | top :: _ =>
            let s2 := callback step.id top
            if s2.isOk then traceLoop listener rest stack1
            else .error s2

/-- The `"Stack error during evaluation"` internal status of
`CelExpressionFlatImpl::Trace`. -/
def stackErrorStatus : Status :=
  ⟨StatusCode.kInternal, "Stack error during evaluation"⟩

/-- `CelExpressionFlatImpl::Trace`: `state->Reset()` clears the operand
stack, so the recorded initial stack size is 0; the loop then runs over
the whole execution path, and the single result is peeked and popped only
when the final stack size is exactly the initial size plus one (the
source condition `initial_stack_size + 1 != final_stack_size ||
final_stack_size == 0` is kept verbatim). -/
def CelExpressionFlatImpl.Trace (listener : TraceListener)
    (path : List ExpressionStep) : Except Status Value :=
  let initialStackSize : Nat := 0
  match traceLoop listener path [] with
  | .error s => .error s
  | .ok finalStack =>
    if initialStackSize + 1 ≠ finalStack.length ∨ finalStack.length = 0 then
      .error stackErrorStatus
    else
      match finalStack with
      | top :: _ => .ok top
      | [] => .error stackErrorStatus

/-! ### Evaluation frame iteration stack (ExecutionFrame, src/unnamed/part_002)

The iteration stack is modelled with the most recently pushed frame at the
head of the list (the source stores a vector and iterates `rbegin()` to
`rend()`, i.e. most recent first).  The attribute trail payload is opaque
to every claim and is carried as a `Nat` stand-in.  Mutating members are
modelled as functions returning the resulting status together with the
(possibly updated) stack. -/

/-- One named variable slot of an iteration frame: the bound name, the
value handle (empty until set), and the attribute trail. -/
structure VarBinding where
  name : String
  value : Option Value
  attrTrail : Nat
deriving DecidableEq, Repr

/-- One `CelExpressionFlatEvaluationState::IterFrame`. -/
structure IterFrame where
  iterVar : VarBinding
  accuVar : VarBinding
deriving DecidableEq, Repr

/-- `InvalidIterationStateError()` from evaluator_core.cc. -/
def invalidIterationStateError : Status :=
  ⟨StatusCode.kInternal,
    "Attempted to access iteration variable outside of comprehension."⟩

/-- The `"Loop stack underflow."` status of `ExecutionFrame::PopIterFrame`. -/
def loopStackUnderflowError : Status :=
  ⟨StatusCode.kInternal, "Loop stack underflow."⟩

/-- `ExecutionFrame::PushIterFrame`: pushes a frame with both variable
slots named but unbound. -/
def ExecutionFrame.PushIterFrame (stack : List IterFrame)
    (iterVarName accuVarName : String) : Status × List IterFrame :=
  (okStatus, ⟨⟨iterVarName, none, 0⟩, ⟨accuVarName, none, 0⟩⟩ :: stack)

/-- `ExecutionFrame::PopIterFrame`: fails with the internal
loop-stack-underflow status on an empty iteration stack, leaving the
stack unchanged. -/
def ExecutionFrame.PopIterFrame (stack : List IterFrame) :
    Status × List IterFrame :=
  match stack with
  | [] => (loopStackUnderflowError, [])
  | _ :: rest => (okStatus, rest)

/-- `ExecutionFrame::SetAccuVar`: rebinds the accumulator slot of the top
frame, or fails with `InvalidIterationStateError` on an empty stack. -/
def ExecutionFrame.SetAccuVar (stack : List IterFrame) (v : Value)
    (trail : Nat) : Status × List IterFrame :=
  match stack with
  | [] => (invalidIterationStateError, [])
  | top :: rest =>
    (okStatus,
      { top with accuVar := { top.accuVar with value := some v, attrTrail := trail } } :: rest)

/-- `ExecutionFrame::SetIterVar`: rebinds the iteration slot of the top
frame, or fails with `InvalidIterationStateError` on an empty stack. -/
def ExecutionFrame.SetIterVar (stack : List IterFrame) (v : Value)
    (trail : Nat) : Status × List IterFrame :=
  match stack with
  | [] => (invalidIterationStateError, [])
  | top :: rest =>
    (okStatus,
      { top with iterVar := { top.iterVar with value := some v, attrTrail := trail } } :: rest)

/-- The per-slot test of `ExecutionFrame::GetIterVar`: a slot matches when
its value handle is bound and its name equals the looked-up name. -/
def bindingMatch (b : VarBinding) (name : String) : Option (Value × Nat) :=
  match b.value with
  | some v => if b.name = name then some (v, b.attrTrail) else none
  | none => none

/-- The per-frame test of `ExecutionFrame::GetIterVar`: the iteration slot
is consulted before the accumulator slot. -/
def frameLookup (f : IterFrame) (name : String) : Option (Value × Nat) :=
  match bindingMatch f.iterVar name with
  | some r => some r
  | none => bindingMatch f.accuVar name

/-- `ExecutionFrame::GetIterVar`: walks the iteration stack from the most
recently pushed frame outward and returns the first matching binding
(value and attribute trail), or nothing when no frame matches. -/
def ExecutionFrame.GetIterVar :
    List IterFrame → String → Option (Value × Nat)
  | [], _ => none
  | f :: rest, name =>
    match frameLookup f name with
    | some r => some r
    | none => ExecutionFrame.GetIterVar rest name

/-- Modelled from the spec: named variable resolution during comprehension
evaluation — the identifier step that combines `GetIterVar` with the
external activation is outside the sampled sources; the spec states that
resolution searches the iteration stack innermost-first and only falls
back to the activation when no frame matches. -/
def ResolveVariable (stack : List IterFrame)
    (activation : String → Option Value) (name : String) : Option Value :=
  match ExecutionFrame.GetIterVar stack name with
  | some (v, _) => some v
  | none => activation name

/-! ### Typed map key iterator (common/map_type_reflector.cc) -/

/-- The `FailedPrecondition` status of `TypedMapValueKeyIterator::Next`. -/
def iteratorExhaustedError : Status :=
  ⟨StatusCode.kFailedPrecondition,
    "ValueIterator::Next() called when ValueIterator::HasNext() returns false"⟩

/-- `TypedMapValueKeyIterator` state: the keys between `begin_` and
`end_` not yet produced. -/
def TypedMapValueKeyIterator := List Value

/-- `TypedMapValueKeyIterator::HasNext()`: `begin_ != end_`. -/
def TypedMapValueKeyIterator.HasNext (it : TypedMapValueKeyIterator) : Bool :=
  !it.isEmpty

/-- `TypedMapValueKeyIterator::Next`: yields the next key and advances, or
fails with the `FailedPrecondition` status — leaving the iterator
unchanged — when the sequence is exhausted. -/
def TypedMapValueKeyIterator.Next (it : TypedMapValueKeyIterator) :
    Except Status Value × TypedMapValueKeyIterator :=
  match it with
  | [] => (.error iteratorExhaustedError, [])
  | k :: rest => (.ok k, rest)

/-- Driving the iterator `n` times: the list of keys produced (stopping at
the first error) and the final iterator state. -/
def iterateNext : Nat → TypedMapValueKeyIterator →
    List Value × TypedMapValueKeyIterator
  | 0, it => ([], it)
  | n + 1, it =>
    match TypedMapValueKeyIterator.Next it with
    | (.error _, it1) => ([], it1)
    | (.ok k, it1) =>
      let (ks, fin) := iterateNext n it1
      (k :: ks, fin)

/-! ### Concrete fixtures used by witnesses and counterexamples -/

/-- A compiler-generated (non-AST) step pushing the integer constant 7. -/
def constStep7 : ExpressionStep :=
  ⟨1, false, fun stack => .ok (Value.intVal 7 :: stack)⟩

/-- An AST-attributed step that pops the entire operand stack, as a
short-circuiting jump may. -/
def popAllStep : ExpressionStep := ⟨2, true, fun _ => .ok []⟩

/-- An AST-attributed step pushing the integer constant 3. -/
def constStep3Ast : ExpressionStep :=
  ⟨3, true, fun stack => .ok (Value.intVal 3 :: stack)⟩

/-- A distinctive status for an aborting trace listener. -/
def sentinelStatus : Status := ⟨StatusCode.kInvalidArgument, "listener sentinel"⟩

/-- A trace listener rejecting every notification with `sentinelStatus`. -/
def rejectAllListener : TraceListener := some (fun _ _ => sentinelStatus)

/-- A concrete entry-level equality driving the equality algorithms on
concrete operands: structural equality reported as a Bool value. -/
def structuralEq (a b : Value) : Except Status Value :=
  .ok (.boolVal (a == b))

/-- A struct of type name Foo with single field x = 1. -/
def fooStruct : StructIface := ⟨1, "Foo", [("x", Value.intVal 1)]⟩

/-- A struct of type name Bar with single field x = 1. -/
def barStruct : StructIface := ⟨2, "Bar", [("x", Value.intVal 1)]⟩

/-- An empty concrete map interface. -/
def emptyMapA : MapIface :=
  ⟨5, 0, [], fun _ => none, fun _ => .error iteratorExhaustedError⟩

/-- An iteration frame binding the iteration variable x to 1. -/
def frameX1 : IterFrame :=
  ⟨⟨"x", some (Value.intVal 1), 0⟩, ⟨"__result__", none, 0⟩⟩

/-- An iteration frame binding the iteration variable x to 2. -/
def frameX2 : IterFrame :=
  ⟨⟨"x", some (Value.intVal 2), 0⟩, ⟨"__result__", none, 0⟩⟩

/-! ## Theorems -/

/-- C6: on an evaluation frame whose iteration stack is empty,
`PopIterFrame` fails with the internal loop-stack-underflow status and
`SetAccuVar`/`SetIterVar` fail with the internal `InvalidIterationState`
status; all three leave the stack unchanged, and both statuses are of the
internal engine-invariant class (statuses, not Error-kind expression
values). -/
theorem iter_stack_empty_failures (v : Value) (trail : Nat) :
    ExecutionFrame.PopIterFrame [] = (loopStackUnderflowError, []) ∧
    ExecutionFrame.SetAccuVar [] v trail = (invalidIterationStateError, []) ∧
    ExecutionFrame.SetIterVar [] v trail = (invalidIterationStateError, []) ∧
    loopStackUnderflowError.code = StatusCode.kInternal ∧
    invalidIterationStateError.code = StatusCode.kInternal :=
  ⟨rfl, rfl, rfl, rfl, rfl⟩

/-- C10: a typed map key iterator over `n` keys yields exactly those `n`
keys in order and ends exhausted; `HasNext` is false exactly on the empty
remainder, and calling `Next` then fails with the `FailedPrecondition`
status while leaving the iterator unchanged. -/
theorem iterator_yields_exact_keys (keys : List Value) :
    iterateNext keys.length keys = (keys, ([] : TypedMapValueKeyIterator)) ∧
    (∀ it : TypedMapValueKeyIterator, TypedMapValueKeyIterator.HasNext it = false →
        it = [] ∧ TypedMapValueKeyIterator.Next it = (.error iteratorExhaustedError, it)) ∧
    iteratorExhaustedError.code = StatusCode.kFailedPrecondition := by
  refine ⟨?_, ?_, rfl⟩
  · induction keys with
    | nil => rfl
    | cons k rest ih =>
      simp only [List.length_cons, iterateNext, TypedMapValueKeyIterator.Next, ih]
  · intro it hit
    cases it with
    | nil => exact ⟨rfl, rfl⟩
    | cons k rest => simp [TypedMapValueKeyIterator.HasNext] at hit

/-- C10 witness: a concrete two-key iterator yields its two keys, and the
exhausted iterator rejects `Next`. -/
theorem iterator_yields_exact_keys_witness :
    iterateNext 2 [Value.intVal 1, Value.intVal 2]
      = ([Value.intVal 1, Value.intVal 2], []) ∧
    TypedMapValueKeyIterator.Next [] = (.error iteratorExhaustedError, []) :=
  ⟨(iterator_yields_exact_keys [Value.intVal 1, Value.intVal 2]).1,
   ((iterator_yields_exact_keys []).2.1 [] rfl).2⟩

/-- C8: map-builder `Put` with an Error-kind key fails immediately with
the status carried by that Error value, and with a non-Error key but an
Error-kind value fails with that value's carried status; in both cases the
builder state is unchanged (no entry inserted). -/
theorem put_error_fails_fast (b : MapValueBuilderImpl) (k v : Value)
    (s : Status) :
    (k = Value.errorVal s → MapValueBuilderImpl.Put b k v = (s, b)) ∧
    (k.isError = false → v = Value.errorVal s →
        MapValueBuilderImpl.Put b k v = (s, b)) := by
  constructor
  · rintro rfl
    simp [MapValueBuilderImpl.Put, Value.isError, Value.errorStatus]
  · rintro hk rfl
    unfold MapValueBuilderImpl.Put
    rw [hk]
    simp [Value.isError, Value.errorStatus]

/-- C8 witness: concrete Error-kind key and value rejections. -/
theorem put_error_fails_fast_witness :
    MapValueBuilderImpl.Put ⟨[]⟩ (Value.errorVal sentinelStatus)
        (Value.intVal 1) = (sentinelStatus, ⟨[]⟩) ∧
    MapValueBuilderImpl.Put ⟨[]⟩ (Value.intVal 1)
        (Value.errorVal sentinelStatus) = (sentinelStatus, ⟨[]⟩) :=
  ⟨(put_error_fails_fast ⟨[]⟩ (Value.errorVal sentinelStatus)
      (Value.intVal 1) sentinelStatus).1 rfl,
   (put_error_fails_fast ⟨[]⟩ (Value.intVal 1)
      (Value.errorVal sentinelStatus) sentinelStatus).2 rfl rfl⟩

/-- Helper: the builder key-equality is reflexive on every map-key-eligible
kind (hash-map presence of a stored key is detected when probing the same
key again). -/
theorem mapValueKeyEqualTo_refl (k : Value) (h : k.isMapKeyKind = true) :
    mapValueKeyEqualTo k k = true := by
  cases k <;> simp_all [Value.isMapKeyKind, mapValueKeyEqualTo]

/-- Helper: a key-eligible value is not Error-kind. -/
theorem isMapKeyKind_not_error (k : Value) (h : k.isMapKeyKind = true) :
    k.isError = false := by
  cases k <;> simp_all [Value.isMapKeyKind, Value.isError]

/-- Helper: `Put` on a builder not containing the (non-Error) key succeeds
and appends the entry. -/
theorem put_fresh_key (b : MapValueBuilderImpl) (k v : Value)
    (hk : k.isError = false) (hv : v.isError = false)
    (habsent : containsKey b.entries k = false) :
    MapValueBuilderImpl.Put b k v = (okStatus, ⟨b.entries ++ [(k, v)]⟩) := by
  unfold MapValueBuilderImpl.Put
  rw [hk, hv, habsent]
  simp

/-- C4: inserting a key already present in a map builder fails with the
`DuplicateKey` error and leaves the builder unchanged; moreover after a
fresh insertion of a key-eligible key, re-inserting that key fails with
`DuplicateKey`, the builder keeps the first association (lookup still
finds the first value) and the second value is not stored. -/
theorem put_duplicate_key_rejected (b : MapValueBuilderImpl)
    (k v w : Value) :
    (containsKey b.entries k = true → k.isError = false → w.isError = false →
        MapValueBuilderImpl.Put b k w = (duplicateKeyError, b)) ∧
    (k.isMapKeyKind = true → v.isError = false → w.isError = false →
        containsKey b.entries k = false →
        MapValueBuilderImpl.Put b k v = (okStatus, ⟨b.entries ++ [(k, v)]⟩) ∧
        MapValueBuilderImpl.Put ⟨b.entries ++ [(k, v)]⟩ k w
          = (duplicateKeyError, ⟨b.entries ++ [(k, v)]⟩) ∧
        findEntry (b.entries ++ [(k, v)]) k = some v) := by
  constructor
  · intro hpresent hk hw
    unfold MapValueBuilderImpl.Put
    rw [hk, hw, hpresent]
    simp
  · intro hkind hv hw habsent
    have hk := isMapKeyKind_not_error k hkind
    have hrefl := mapValueKeyEqualTo_refl k hkind
    have hpresent1 : containsKey (b.entries ++ [(k, v)]) k = true := by
      simp [containsKey, List.any_append, hrefl]
    refine ⟨put_fresh_key b k v hk hv habsent, ?_, ?_⟩
    · unfold MapValueBuilderImpl.Put
      rw [hk, hw, hpresent1]
      simp
    · have hnone : b.entries.find? (fun e => mapValueKeyEqualTo e.1 k) = none := by
        simp only [containsKey] at habsent
        rw [List.find?_eq_none]
        intro x hx
        have := List.any_eq_false.mp habsent x hx
        simpa using this
      simp [findEntry, List.find?_append, hnone, hrefl]

/-- C4 witness: concrete duplicate insertion on the dynamic builder. -/
theorem put_duplicate_key_rejected_witness :
    MapValueBuilderImpl.Put ⟨[]⟩ (Value.intVal 1) (Value.intVal 2)
      = (okStatus, ⟨[(Value.intVal 1, Value.intVal 2)]⟩) ∧
    MapValueBuilderImpl.Put ⟨[(Value.intVal 1, Value.intVal 2)]⟩
        (Value.intVal 1) (Value.intVal 3)
      = (duplicateKeyError, ⟨[(Value.intVal 1, Value.intVal 2)]⟩) ∧
    findEntry [(Value.intVal 1, Value.intVal 2)] (Value.intVal 1)
      = some (Value.intVal 2) := by
  have h := (put_duplicate_key_rejected ⟨[]⟩ (Value.intVal 1)
      (Value.intVal 2) (Value.intVal 3)).2 rfl rfl rfl rfl
  simpa using h

/-- C3 counterexample: `Put` on the fully dynamic builder with a
Double-kind key (not a permitted map key kind) succeeds — it returns
`OkStatus` and inserts the entry — instead of failing with the
`InvalidMapKeyType` error. -/
theorem put_accepts_bad_key_kind_counterexample :
    MapValueBuilderImpl.Put ⟨[]⟩ Value.doubleVal (Value.intVal 1)
      = (okStatus, ⟨[(Value.doubleVal, Value.intVal 1)]⟩) ∧
    okStatus.code ≠ (invalidMapKeyTypeError ValueKind.kDouble).code :=
  ⟨rfl, by decide⟩

/-- C3 amended: the standalone `CheckMapKey` helper does reject every key
whose kind is outside Bool/Int/Uint/String with `InvalidMapKeyType`
(an InvalidArgument status), but the map builders' `Put` never invokes it:
`Put` inserts any non-Error-kind key of any kind (subject only to the
duplicate-key check), so key-kind checking happens only where callers
invoke `CheckMapKey`, not at the builder insertion boundary. -/
theorem check_map_key_not_applied_at_put (b : MapValueBuilderImpl)
    (k v : Value) :
    (k.isMapKeyKind = true → CheckMapKey k = okStatus) ∧
    (k.isMapKeyKind = false →
        CheckMapKey k = invalidMapKeyTypeError k.kind ∧
        (invalidMapKeyTypeError k.kind).code = StatusCode.kInvalidArgument) ∧
    (k.isError = false → v.isError = false →
        containsKey b.entries k = false →
        MapValueBuilderImpl.Put b k v = (okStatus, ⟨b.entries ++ [(k, v)]⟩)) := by
  refine ⟨?_, ?_, fun hk hv habsent => put_fresh_key b k v hk hv habsent⟩
  · intro h
    cases k <;> simp_all [Value.isMapKeyKind, CheckMapKey, Value.kind]
  · intro h
    cases k <;> simp_all [Value.isMapKeyKind, CheckMapKey, Value.kind,
      invalidMapKeyTypeError]

/-- C3 amended witness: a Double key is rejected by `CheckMapKey` yet
accepted and stored by the builder `Put`. -/
theorem check_map_key_not_applied_at_put_witness :
    CheckMapKey Value.doubleVal = invalidMapKeyTypeError ValueKind.kDouble ∧
    MapValueBuilderImpl.Put ⟨[]⟩ Value.doubleVal (Value.intVal 2)
      = (okStatus, ⟨[(Value.doubleVal, Value.intVal 2)]⟩) := by
  have h := check_map_key_not_applied_at_put ⟨[]⟩ Value.doubleVal (Value.intVal 2)
  exact ⟨(h.2.1 rfl).1, by simpa using h.2.2 rfl rfl rfl⟩

/-- C1: for every evaluation (with or without a trace listener) whose step
loop completes with some final stack, `Trace` returns a value exactly when
the final stack holds one more value than the (reset, hence empty) initial
stack; any other final depth — including zero — makes `Trace` fail with
the internal stack-error status instead of returning a result. -/
theorem trace_stack_discipline (listener : TraceListener)
    (path : List ExpressionStep) (finalStack : List Value)
    (h : traceLoop listener path [] = Except.ok finalStack) :
    (∀ v, CelExpressionFlatImpl.Trace listener path = Except.ok v →
        finalStack = [v]) ∧
    (∀ v, finalStack = [v] →
        CelExpressionFlatImpl.Trace listener path = Except.ok v) ∧
    (finalStack.length ≠ 0 + 1 →
        CelExpressionFlatImpl.Trace listener path
          = Except.error stackErrorStatus) ∧
    stackErrorStatus.code = StatusCode.kInternal := by
  unfold CelExpressionFlatImpl.Trace
  rw [h]
  match finalStack with
  | [] => refine ⟨by simp, by simp, fun _ => by simp, rfl⟩
  | [v] => refine ⟨by simp, by simp, fun hlen => absurd rfl hlen, rfl⟩
  | v :: w :: rest =>
    refine ⟨by simp, by simp, fun _ => ?_, rfl⟩
    simp

/-- C1 witness: a two-push plan fails with the internal stack error, and a
one-push plan returns its single value. -/
theorem trace_stack_discipline_witness :
    CelExpressionFlatImpl.Trace none [constStep7, constStep7]
      = Except.error stackErrorStatus ∧
    CelExpressionFlatImpl.Trace none [constStep7]
      = Except.ok (Value.intVal 7) :=
  ⟨(trace_stack_discipline none [constStep7, constStep7]
      [Value.intVal 7, Value.intVal 7] rfl).2.2.1 (by decide),
   (trace_stack_discipline none [constStep7] [Value.intVal 7] rfl).2.1
      (Value.intVal 7) rfl⟩

/-- C5 counterexample: an executed AST-attributable step after which the
operand stack is empty does not trigger the trace listener — with a
listener that rejects every notification, the evaluation of a plan whose
only (AST-attributed) step leaves the stack empty ends with the internal
stack error, not with the listener's error. -/
theorem trace_listener_skip_counterexample :
    popAllStep.comesFromAst = true ∧
    CelExpressionFlatImpl.Trace rejectAllListener [popAllStep]
      = Except.error stackErrorStatus ∧
    stackErrorStatus.code ≠ sentinelStatus.code :=
  ⟨rfl, rfl, by decide⟩

/-- C5 amended: with a trace listener, after every executed step the loop
behaves as follows — a failing step status is returned immediately; a step
not attributed to an AST node never notifies the listener; an
AST-attributed step that leaves the stack empty is skipped (logged and
tolerated) rather than notified; an AST-attributed step that leaves a
non-empty stack notifies the listener with the node id and top-of-stack
value, and a non-ok listener status aborts the evaluation immediately with
exactly that status. -/
theorem trace_listener_invocation (callback : Nat → Value → Status)
    (step : ExpressionStep) (rest : List ExpressionStep)
    (stack stack1 : List Value) (top : Value) (tail : List Value)
    (s : Status) :
    (step.evaluate stack = .error s →
        traceLoop (some callback) (step :: rest) stack = Except.error s) ∧
    (step.evaluate stack = .ok stack1 → step.comesFromAst = false →
        traceLoop (some callback) (step :: rest) stack
          = traceLoop (some callback) rest stack1) ∧
    (step.evaluate stack = .ok [] → step.comesFromAst = true →
        traceLoop (some callback) (step :: rest) stack
          = traceLoop (some callback) rest []) ∧
    (step.evaluate stack = .ok (top :: tail) → step.comesFromAst = true →
        (callback step.id top).isOk = false →
        traceLoop (some callback) (step :: rest) stack
          = Except.error (callback step.id top)) ∧
    (step.evaluate stack = .ok (top :: tail) → step.comesFromAst = true →
        (callback step.id top).isOk = true →
        traceLoop (some callback) (step :: rest) stack
          = traceLoop (some callback) rest (top :: tail)) ∧
    (step.evaluate [] = .ok (top :: tail) → step.comesFromAst = true →
        (callback step.id top).isOk = false → rest = [] →
        CelExpressionFlatImpl.Trace (some callback) [step]
          = Except.error (callback step.id top)) := by
  refine ⟨?_, ?_, ?_, ?_, ?_, ?_⟩
  · intro he
    simp [traceLoop, he]
  · intro he hast
    simp [traceLoop, he, hast]
  · intro he hast
    simp [traceLoop, he, hast]
  · intro he hast hbad
    simp [traceLoop, he, hast, hbad]
  · intro he hast hok
    simp [traceLoop, he, hast, hok]
  · intro he hast hbad _
    unfold CelExpressionFlatImpl.Trace
    have hloop : traceLoop (some callback) [step] []
        = Except.error (callback step.id top) := by
      simp [traceLoop, he, hast, hbad]
    rw [hloop]

/-- C5 amended witness: a concrete aborting listener notification — a plan
whose single AST step pushes a constant is aborted by a listener that
rejects every notification, returning the listener's status. -/
theorem trace_listener_invocation_witness :
    CelExpressionFlatImpl.Trace (some (fun _ _ => sentinelStatus))
      [constStep3Ast] = Except.error sentinelStatus := by
  have h := (trace_listener_invocation (fun _ _ => sentinelStatus)
      constStep3Ast [] [] [Value.intVal 3] (Value.intVal 3) [] okStatus).2.2.2.2.2
  simpa using h rfl rfl (by decide) rfl

/-- Helper: `GetIterVar` finds nothing when no frame of the stack matches
the name. -/
theorem getIterVar_eq_none (stack : List IterFrame) (name : String)
    (h : ∀ g ∈ stack, frameLookup g name = none) :
    ExecutionFrame.GetIterVar stack name = none := by
  induction stack with
  | nil => rfl
  | cons f rest ih =>
    have hf := h f (List.mem_cons_self f rest)
    simp only [ExecutionFrame.GetIterVar, hf]
    exact ih fun g hg => h g (List.mem_cons_of_mem f hg)

/-- Helper: `GetIterVar` returns the binding of the first (innermost)
matching frame, skipping every earlier non-matching frame. -/
theorem getIterVar_first_match (pre post : List IterFrame) (f : IterFrame)
    (name : String) (r : Value × Nat)
    (hpre : ∀ g ∈ pre, frameLookup g name = none)
    (hf : frameLookup f name = some r) :
    ExecutionFrame.GetIterVar (pre ++ f :: post) name = some r := by
  induction pre with
  | nil => simp [ExecutionFrame.GetIterVar, hf]
  | cons g rest ih =>
    have hg := hpre g (List.mem_cons_self g rest)
    simp only [List.cons_append, ExecutionFrame.GetIterVar, hg]
    exact ih fun g1 hg1 => hpre g1 (List.mem_cons_of_mem g hg1)

/-- C7: variable resolution over the iteration stack searches from the
innermost (most recently pushed) frame outward — the binding returned is
the one of the innermost frame whose bound iteration or accumulator
variable matches the name, so an inner comprehension variable shadows any
same-named outer one — and the external activation is consulted exactly
when no frame matches. -/
theorem get_iter_var_innermost_shadowing (stack pre post : List IterFrame)
    (f : IterFrame) (name : String) (r : Value × Nat)
    (activation : String → Option Value) :
    (stack = pre ++ f :: post →
        (∀ g ∈ pre, frameLookup g name = none) →
        frameLookup f name = some r →
        ExecutionFrame.GetIterVar stack name = some r ∧
        ResolveVariable stack activation name = some r.1) ∧
    ((∀ g ∈ stack, frameLookup g name = none) →
        ExecutionFrame.GetIterVar stack name = none ∧
        ResolveVariable stack activation name = activation name) := by
  constructor
  · rintro rfl hpre hf
    have hg := getIterVar_first_match pre post f name r hpre hf
    exact ⟨hg, by simp [ResolveVariable, hg]⟩
  · intro hall
    have hg := getIterVar_eq_none stack name hall
    exact ⟨hg, by simp [ResolveVariable, hg]⟩

/-- C7 witness: with two nested frames both binding x, resolution returns
the innermost binding (x = 2), shadowing the outer frame's x = 1 and the
activation's x = 0. -/
theorem get_iter_var_innermost_shadowing_witness :
    ExecutionFrame.GetIterVar [frameX2, frameX1] "x"
      = some (Value.intVal 2, 0) ∧
    ResolveVariable [frameX2, frameX1]
      (fun _ => some (Value.intVal 0)) "x" = some (Value.intVal 2) := by
  have h := (get_iter_var_innermost_shadowing [frameX2, frameX1] [] [frameX1]
      frameX2 "x" (Value.intVal 2, 0) (fun _ => some (Value.intVal 0))).1
    rfl (by intro g hg; simp at hg) (by decide)
  exact h

/-- Helper: the map equality loop cannot hit the `ABSL_CHECK` crash when
the lhs iterator holds at least as many keys as the loop has iterations. -/
theorem mapValueEqualLoop_no_crash (eqv : Value → Value → Except Status Value)
    (lhs rhs : MapIface) (fuel : Nat) (keys : List Value)
    (h : fuel ≤ keys.length) :
    mapValueEqualLoop eqv lhs rhs fuel keys ≠ EqOutcome.crash := by
  induction fuel generalizing keys with
  | zero => simp [mapValueEqualLoop]
  | succ n ih =>
    cases keys with
    | nil => simp at h
    | cons k rest =>
      have hle : n ≤ rest.length := Nat.le_of_succ_le_succ (by simpa using h)
      cases hfind : rhs.find k with
      | none => simp [mapValueEqualLoop, hfind]
      | some rhsValue =>
        cases hget : lhs.get k with
        | error s => simp [mapValueEqualLoop, hfind, hget]
        | ok lhsValue =>
          cases heq : eqv lhsValue rhsValue with
          | error s => simp [mapValueEqualLoop, hfind, hget, heq]
          | ok r =>
            by_cases hr : r = Value.boolVal false
            · simp [mapValueEqualLoop, hfind, hget, heq, hr]
            · simpa [mapValueEqualLoop, hfind, hget, heq, hr] using ih rest hle

/-- Helper: the struct equality loop yields only a flag/count pair or a
propagated status. -/
theorem structEqualLoop_shape (eqv : Value → Value → Except Status Value)
    (scratch fields : List (String × Value)) (count : Nat) :
    (∃ p, structEqualLoop eqv scratch fields count = Except.ok p) ∨
    (∃ s, structEqualLoop eqv scratch fields count = Except.error s) := by
  induction fields generalizing count with
  | nil => exact Or.inl ⟨(true, count), rfl⟩
  | cons e rest ih =>
    obtain ⟨name, rhsValue⟩ := e
    cases hfind : scratchFind scratch name with
    | none => exact Or.inl ⟨(false, count), by simp [structEqualLoop, hfind]⟩
    | some lhsValue =>
      cases heq : eqv lhsValue rhsValue with
      | error s => exact Or.inr ⟨s, by simp [structEqualLoop, hfind, heq]⟩
      | ok r =>
        by_cases hr : r = Value.boolVal false
        · exact Or.inl ⟨(false, count),
            by simp [structEqualLoop, hfind, heq, hr]⟩
        · rcases ih (count + 1) with ⟨p, hp⟩ | ⟨s, hp⟩
          · exact Or.inl ⟨p, by simp [structEqualLoop, hfind, heq, hr, hp]⟩
          · exact Or.inr ⟨s, by simp [structEqualLoop, hfind, heq, hr, hp]⟩

/-- Helper: inserting into the scratch mapping never empties it. -/
theorem insertOrAssign_ne_nil (m : List (String × Value)) (name : String)
    (v : Value) : insertOrAssign m name v ≠ [] := by
  unfold insertOrAssign
  split
  · intro hmap
    rename_i hany
    rw [List.map_eq_nil_iff] at hmap
    subst hmap
    simp at hany
  · simp

/-- Helper: the scratch snapshot of a non-empty field sequence is
non-empty. -/
theorem snapshotFields_ne_nil (fields : List (String × Value))
    (h : fields ≠ []) : snapshotFields fields ≠ [] := by
  have grow : ∀ (rest : List (String × Value)) (m : List (String × Value)),
      m ≠ [] → rest.foldl (fun m e => insertOrAssign m e.1 e.2) m ≠ [] := by
    intro rest
    induction rest with
    | nil => intro m hm; simpa using hm
    | cons e tail ih =>
      intro m _
      simpa using ih (insertOrAssign m e.1 e.2) (insertOrAssign_ne_nil m e.1 e.2)
  cases fields with
  | nil => exact absurd rfl h
  | cons e rest =>
    simp only [snapshotFields, List.foldl_cons]
    exact grow rest (insertOrAssign [] e.1 e.2) (insertOrAssign_ne_nil [] e.1 e.2)

/-- C2 counterexample: two struct values with different type names but
identical single fields — the source algorithm (`StructValueEqual`) makes
them unequal by the type-name precondition, while the claimed algorithm
(identity, then size, then scratch snapshot/probe/consumed-count) makes
them equal, so equality is not computed as the claim states. -/
theorem struct_equality_shape_counterexample :
    structValueEqual structuralEq fooStruct barStruct
      = EqOutcome.ok (Value.boolVal false) ∧
    claimedStructEqual structuralEq fooStruct barStruct
      = EqOutcome.ok (Value.boolVal true) := by
  constructor <;> decide

/-- C2 amended: the two equality algorithms differ in shape. Map equality
(`MapValueEqual`) short-circuits true on identity, returns false on a size
mismatch, and otherwise probes the rhs `Find` directly for each key the
lhs iterator produces — no scratch mapping is built and no consumed-entry
count is verified; instead the lhs iterator is `ABSL_CHECK`ed, which
crashes (rather than reporting inequality) when a backing yields fewer
keys than its reported size, and cannot crash when the iterator covers the
reported size. Struct equality (`StructValueEqual`) never consults
identity or size up front: it returns false on mismatched type names,
snapshots the lhs fields into a scratch mapping, probes every rhs field
against it (a miss or a false comparison ends with false), and finally
treats a consumed-count mismatch with the scratch size as inequality —
never crashing, e.g. yielding false when the rhs yields no fields while
the lhs has some. -/
theorem map_struct_equality_shapes (eqv : Value → Value → Except Status Value)
    (lhs rhs : MapIface) (slhs srhs : StructIface) :
    (lhs.ident = rhs.ident →
        mapValueEqual eqv lhs rhs = EqOutcome.ok (Value.boolVal true)) ∧
    (lhs.ident ≠ rhs.ident → lhs.size ≠ rhs.size →
        mapValueEqual eqv lhs rhs = EqOutcome.ok (Value.boolVal false)) ∧
    (lhs.ident ≠ rhs.ident → lhs.size = rhs.size → lhs.size ≠ 0 →
        lhs.keys = [] → mapValueEqual eqv lhs rhs = EqOutcome.crash) ∧
    (lhs.ident ≠ rhs.ident → lhs.size ≤ lhs.keys.length →
        mapValueEqual eqv lhs rhs ≠ EqOutcome.crash) ∧
    (slhs.typeName ≠ srhs.typeName →
        structValueEqual eqv slhs srhs = EqOutcome.ok (Value.boolVal false)) ∧
    (structValueEqual eqv slhs srhs ≠ EqOutcome.crash) ∧
    (slhs.typeName = srhs.typeName → srhs.fields = [] → slhs.fields ≠ [] →
        structValueEqual eqv slhs srhs = EqOutcome.ok (Value.boolVal false)) := by
  refine ⟨?_, ?_, ?_, ?_, ?_, ?_, ?_⟩
  · intro hid
    simp [mapValueEqual, hid]
  · intro hid hsize
    simp [mapValueEqual, hid, hsize]
  · intro hid hsize hnz hkeys
    obtain ⟨n, hn⟩ := Nat.exists_eq_succ_of_ne_zero hnz
    unfold mapValueEqual
    rw [if_neg hid, if_neg (by simp [hsize]), hkeys, hn]
    rfl
  · intro hid hle
    by_cases hsize : lhs.size = rhs.size
    · unfold mapValueEqual
      rw [if_neg hid, if_neg (by simp [hsize])]
      exact mapValueEqualLoop_no_crash eqv lhs rhs lhs.size lhs.keys hle
    · simp [mapValueEqual, hid, hsize]
  · intro hname
    simp [structValueEqual, hname]
  · by_cases hname : slhs.typeName ≠ srhs.typeName
    · simp [structValueEqual, hname]
    · rcases structEqualLoop_shape eqv (snapshotFields slhs.fields)
        srhs.fields 0 with ⟨⟨equal, count⟩, hp⟩ | ⟨s, hp⟩
      · unfold structValueEqual
        rw [if_neg hname, hp]
        split
        · simp
        · split <;> simp
      · unfold structValueEqual
        rw [if_neg hname, hp]
        simp
  · intro hname hrhs hlhs
    have hs := snapshotFields_ne_nil slhs.fields hlhs
    have hlen0 : (0 : Nat) ≠ (snapshotFields slhs.fields).length := by
      intro h0
      exact hs (List.length_eq_zero.mp h0.symm)
    simp [structValueEqual, hname, hrhs, structEqualLoop, hlen0]

/-- C2 amended witness: concrete instances — identity short-circuit on a
map compared with itself, and the consumed-count inequality on a struct
whose rhs backing yields no fields. -/
theorem map_struct_equality_shapes_witness :
    mapValueEqual structuralEq emptyMapA emptyMapA
      = EqOutcome.ok (Value.boolVal true) ∧
    structValueEqual structuralEq fooStruct ⟨3, "Foo", []⟩
      = EqOutcome.ok (Value.boolVal false) := by
  constructor
  · exact (map_struct_equality_shapes structuralEq emptyMapA emptyMapA
      fooStruct fooStruct).1 rfl
  · exact (map_struct_equality_shapes structuralEq emptyMapA emptyMapA
      fooStruct ⟨3, "Foo", []⟩).2.2.2.2.2.2 rfl rfl (by decide)

/-- Helper: a key-eligible value is a Bool, Int, Uint, or String value. -/
theorem isMapKeyKind_cases (a : Value) (h : a.isMapKeyKind = true) :
    (∃ x, a = Value.boolVal x) ∨ (∃ i, a = Value.intVal i) ∨
    (∃ n, a = Value.uintVal n) ∨ (∃ s, a = Value.stringVal s) := by
  cases a <;> simp_all [Value.isMapKeyKind]

/-- Helper: totality of the key order within the Bool kind. -/
theorem mapValueKeyLess_bool_total (x y : Bool) :
    mapValueKeyLess (.boolVal x) (.boolVal y) = true ∨
    Value.boolVal x = Value.boolVal y ∨
    mapValueKeyLess (.boolVal y) (.boolVal x) = true := by
  cases x <;> cases y <;> simp [mapValueKeyLess]

/-- Helper: totality of the key order within the Int kind. -/
theorem mapValueKeyLess_int_total (i j : Int) :
    mapValueKeyLess (.intVal i) (.intVal j) = true ∨
    Value.intVal i = Value.intVal j ∨
    mapValueKeyLess (.intVal j) (.intVal i) = true := by
  rcases lt_trichotomy i j with h | h | h
  · exact Or.inl (by simp [mapValueKeyLess, h])
  · exact Or.inr (Or.inl (by rw [h]))
  · exact Or.inr (Or.inr (by simp [mapValueKeyLess, h]))

/-- Helper: totality of the key order within the Uint kind. -/
theorem mapValueKeyLess_uint_total (m n : Nat) :
    mapValueKeyLess (.uintVal m) (.uintVal n) = true ∨
    Value.uintVal m = Value.uintVal n ∨
    mapValueKeyLess (.uintVal n) (.uintVal m) = true := by
  rcases lt_trichotomy m n with h | h | h
  · exact Or.inl (by simp [mapValueKeyLess, h])
  · exact Or.inr (Or.inl (by rw [h]))
  · exact Or.inr (Or.inr (by simp [mapValueKeyLess, h]))

/-- Helper: totality of the key order within the String kind. -/
theorem mapValueKeyLess_string_total (s t : String) :
    mapValueKeyLess (.stringVal s) (.stringVal t) = true ∨
    Value.stringVal s = Value.stringVal t ∨
    mapValueKeyLess (.stringVal t) (.stringVal s) = true := by
  rcases lt_trichotomy s t with h | h | h
  · exact Or.inl (by simp [mapValueKeyLess, h])
  · exact Or.inr (Or.inl (by rw [h]))
  · exact Or.inr (Or.inr (by simp [mapValueKeyLess, h]))

/-- C9: the debug-print key order is a strict total order over the values
of the four map-key-eligible kinds — irreflexive, transitive, and total
(any two key-eligible values are ordered or equal) — with every Bool
before every Int, Uint and String, every Int before every Uint and String,
every Uint before every String, and the native order within each kind
(`false < true` for Bool, numeric for Int and Uint, lexical for String). -/
theorem map_key_less_strict_total_order (a b c : Value) (x y : Bool)
    (i j : Int) (m n : Nat) (s t : String) :
    (a.isMapKeyKind = true → mapValueKeyLess a a = false) ∧
    (a.isMapKeyKind = true → b.isMapKeyKind = true → c.isMapKeyKind = true →
        mapValueKeyLess a b = true → mapValueKeyLess b c = true →
        mapValueKeyLess a c = true) ∧
    (a.isMapKeyKind = true → b.isMapKeyKind = true →
        mapValueKeyLess a b = true ∨ a = b ∨ mapValueKeyLess b a = true) ∧
    (mapValueKeyLess (.boolVal x) (.intVal i) = true ∧
     mapValueKeyLess (.boolVal x) (.uintVal m) = true ∧
     mapValueKeyLess (.boolVal x) (.stringVal s) = true ∧
     mapValueKeyLess (.intVal i) (.uintVal m) = true ∧
     mapValueKeyLess (.intVal i) (.stringVal s) = true ∧
     mapValueKeyLess (.uintVal m) (.stringVal s) = true) ∧
    (mapValueKeyLess (.boolVal x) (.boolVal y) = (!x && y)) ∧
    ((mapValueKeyLess (.intVal i) (.intVal j) = true) ↔ i < j) ∧
    ((mapValueKeyLess (.uintVal m) (.uintVal n) = true) ↔ m < n) ∧
    ((mapValueKeyLess (.stringVal s) (.stringVal t) = true) ↔ s < t) := by
  refine ⟨?_, ?_, ?_, ⟨rfl, rfl, rfl, rfl, rfl, rfl⟩, rfl,
    by simp [mapValueKeyLess], by simp [mapValueKeyLess],
    by simp [mapValueKeyLess]⟩
  · intro ha
    rcases isMapKeyKind_cases a ha with ⟨x1, rfl⟩ | ⟨i1, rfl⟩ | ⟨m1, rfl⟩ |
      ⟨s1, rfl⟩
    · cases x1 <;> rfl
    · exact decide_eq_false (lt_irrefl i1)
    · exact decide_eq_false (lt_irrefl m1)
    · exact decide_eq_false (lt_irrefl s1)
  · intro ha hb hc hab hbc
    rcases isMapKeyKind_cases a ha with ⟨x1, rfl⟩ | ⟨i1, rfl⟩ | ⟨m1, rfl⟩ |
      ⟨s1, rfl⟩ <;>
    rcases isMapKeyKind_cases b hb with ⟨x2, rfl⟩ | ⟨i2, rfl⟩ | ⟨m2, rfl⟩ |
      ⟨s2, rfl⟩ <;>
    rcases isMapKeyKind_cases c hc with ⟨x3, rfl⟩ | ⟨i3, rfl⟩ | ⟨m3, rfl⟩ |
      ⟨s3, rfl⟩ <;>
    simp_all [mapValueKeyLess] <;>
    first
      | omega
      | exact lt_trans (by assumption) (by assumption)
  · intro ha hb
    rcases isMapKeyKind_cases a ha with ⟨x1, rfl⟩ | ⟨i1, rfl⟩ | ⟨m1, rfl⟩ |
      ⟨s1, rfl⟩ <;>
    rcases isMapKeyKind_cases b hb with ⟨x2, rfl⟩ | ⟨i2, rfl⟩ | ⟨m2, rfl⟩ |
      ⟨s2, rfl⟩
    · exact mapValueKeyLess_bool_total x1 x2
    · exact Or.inl rfl
    · exact Or.inl rfl
    · exact Or.inl rfl
    · exact Or.inr (Or.inr rfl)
    · exact mapValueKeyLess_int_total i1 i2
    · exact Or.inl rfl
    · exact Or.inl rfl
    · exact Or.inr (Or.inr rfl)
    · exact Or.inr (Or.inr rfl)
    · exact mapValueKeyLess_uint_total m1 m2
    · exact Or.inl rfl
    · exact Or.inr (Or.inr rfl)
    · exact Or.inr (Or.inr rfl)
    · exact Or.inr (Or.inr rfl)
    · exact mapValueKeyLess_string_total s1 s2

/-- C9 witness: concrete instances — irreflexivity at an Int key and a
concrete cross-kind comparison discharged through the order theorem. -/
theorem map_key_less_strict_total_order_witness :
    mapValueKeyLess (Value.intVal 3) (Value.intVal 3) = false ∧
    mapValueKeyLess (Value.boolVal true) (Value.intVal (-5)) = true := by
  have h := map_key_less_strict_total_order (Value.intVal 3) (Value.intVal 3)
    (Value.intVal 3) true true (-5) 0 0 0 "" ""
  exact ⟨h.1 rfl, h.2.2.2.1.1⟩

end CelSpec
